import Mathlib

/-!
Verification of the Boggle game engine in `Back.py`.

The embedding models the core of the program: path validation
(`is_valid_path`), word extraction (`get_word_from_path`), dictionary
lookup (`is_valid_word`), the composite attempt pipeline
(`validate_word` plus the route handler, combined in `attemptWord`),
scoring (`add_word` with its inline step function `pointsFor`), and
dictionary loading (`load_word_list`).

Python strings are modelled as `List Char`, Python integers as `Int`
(coordinates) or `Nat` (lengths, scores), the board as a total function
on row/column indices (every access in the code is bounds-guarded), and
the file read in `load_word_list` as an `Option (List String)` where
`none` stands for a missing or unreadable file.
-/

/-- A grid coordinate as submitted by the client: a (row, column) pair of
possibly negative integers. -/
abbrev Pos := Int × Int

/-- The board: letters indexed by row and column.  The code only ever reads
cells after checking `0 <= r < 4 and 0 <= c < 4`, so a total function is a
faithful model. -/
abbrev Board := Nat → Nat → Char

/-- A Python string, as its list of characters. -/
abbrev Word := List Char

/-- The bounds test `0 <= r < 4 and 0 <= c < 4` used in `is_valid_path`
and `get_word_from_path`. -/
def inBounds (p : Pos) : Bool :=
  decide (0 ≤ p.1) && decide (p.1 < 4) && decide (0 ≤ p.2) && decide (p.2 < 4)

/-- The adjacency loop of `is_valid_path` (lines 69-78): for each
consecutive pair, return `False` as soon as the absolute row difference or
the absolute column difference exceeds 1. -/
def adjacentStep : List Pos → Bool
  | p :: q :: rest =>
      if (p.1 - q.1).natAbs > 1 || (p.2 - q.2).natAbs > 1 then false
      else adjacentStep (q :: rest)
  | _ => true

/-- `BoggleGame.is_valid_path` (lines 53-80): reject paths shorter than 3,
paths with a repeated coordinate (the code compares the list length with
the size of the set of its elements), paths with an out-of-bounds
coordinate, and paths with a non-adjacent consecutive pair, in that
order. -/
def is_valid_path (positions : List Pos) : Bool :=
  if positions.length < 3 then false
  else if positions.dedup.length ≠ positions.length then false
  else if !(positions.all inBounds) then false
  else adjacentStep positions

/-- `BoggleGame.get_word_from_path` (lines 82-89): starting from the empty
string, append the lowercased board letter of every in-bounds coordinate,
in path order; out-of-bounds coordinates are skipped silently. -/
def get_word_from_path (board : Board) (positions : List Pos) : Word :=
  positions.foldl
    (fun word p =>
      if inBounds p then word ++ [(board p.1.toNat p.2.toNat).toLower] else word)
    []

/-- `BoggleGame.is_valid_word` (lines 91-93): membership of the lowercased
word in the loaded word set `VALID_WORDS` (here an explicit parameter). -/
def is_valid_word (validWords : List Word) (word : Word) : Bool :=
  decide (word.map Char.toLower ∈ validWords)

/-- Per-session state of `BoggleGame` (lines 35-40): id, board, the found
words in insertion order, and the cumulative score. -/
structure BoggleGame where
  game_id : String
  board : Board
  found_words : List Word
  score : Nat

/-- A fresh session as built by `BoggleGame.__init__`: empty found-word
list and zero score (the board is random; it is a parameter here). -/
def freshGame (id : String) (board : Board) : BoggleGame :=
  { game_id := id, board := board, found_words := [], score := 0 }

/-- Error message of line 101. -/
def msgInvalidPath : Word := "Invalid path - letters must be directly connected".toList

/-- Error message of line 104. -/
def msgTooShort : Word := "Word must be at least 3 letters".toList

/-- Error message of line 107. -/
def msgNotRealWord : Word := "Not a valid English word".toList

/-- Error message of line 110. -/
def msgAlreadyFound : Word := "Word already found".toList

/-- `BoggleGame.validate_word` (lines 95-112): extract the word first
(even for invalid paths), then check path validity, word length,
dictionary membership and the already-found list, in that order; the
result is the Python triple `(ok, result, attempted_word)` where on
success `result` is the word itself. -/
def validate_word (validWords : List Word) (g : BoggleGame) (positions : List Pos) :
    Bool × Word × Word :=
  let word := get_word_from_path g.board positions
  if !(is_valid_path positions) then (false, msgInvalidPath, word)
  else if word.length < 3 then (false, msgTooShort, word)
  else if !(is_valid_word validWords word) then (false, msgNotRealWord, word)
  else if word ∈ g.found_words then (false, msgAlreadyFound, word)
  else (true, word, word)

/-- The scoring table inlined in `BoggleGame.add_word` (lines 117-128),
named `pointsFor` as in the design. -/
def pointsFor (length : Nat) : Nat :=
  if length ≤ 4 then 1
  else if length = 5 then 2
  else if length = 6 then 3
  else if length = 7 then 5
  else 11

/-- `BoggleGame.add_word` (lines 114-130): append the word to
`found_words`, add the points for its length to the score, and return the
points (here together with the updated state). -/
def add_word (g : BoggleGame) (word : Word) : BoggleGame × Nat :=
  let points := pointsFor word.length
  ({ g with found_words := g.found_words ++ [word], score := g.score + points }, points)

/-- Outcome of one attempt as serialized by the `/api/validate_word`
route handler (lines 164-181). -/
inductive AttemptResult where
  | success (word : Word) (points : Nat) (score : Nat) (found_words : List Word)
  | failure (error : Word) (attempted_word : Word)
deriving DecidableEq

/-- The `/api/validate_word` route handler body after session lookup
(lines 164-181): run `validate_word`; on success run `add_word` and
report word, points, new score and found words; on failure report the
error message and the attempted word, leaving the session untouched. -/
def attemptWord (validWords : List Word) (g : BoggleGame) (positions : List Pos) :
    AttemptResult × BoggleGame :=
  match validate_word validWords g positions with
  | (true, result, _) =>
      let wp := add_word g result
      (AttemptResult.success result wp.2 wp.1.score wp.1.found_words, wp.1)
  | (false, result, attempted_word) =>
      (AttemptResult.failure result attempted_word, g)

/-- Repeated attempts against one session, in request order. -/
def runAttempts (validWords : List Word) (g : BoggleGame) : List (List Pos) → BoggleGame
  | [] => g
  | ps :: rest => runAttempts validWords (attemptWord validWords g ps).2 rest

/-- Loop body of `load_word_list` (lines 20-23): strip and lowercase the
line and add the result to the word set when it is nonempty.  The Python
`set` is modelled as a duplicate-free list built by add-if-absent. -/
def addLine (word_set : List Word) (line : String) : List Word :=
  let word := line.trim.toLower.toList
  if word = [] then word_set
  else if word ∈ word_set then word_set
  else word_set ++ [word]

/-- `load_word_list` (lines 13-31): with a readable file (`some lines`),
fold `addLine` over the lines starting from the empty set; with a missing
or unreadable file (`none`, the two `except` arms), return the empty
set. -/
def load_word_list (source : Option (List String)) : List Word :=
  match source with
  | none => []
  | some lines => lines.foldl addLine []

/-! ### Helper lemmas -/

theorem inBounds_iff (p : Pos) :
    inBounds p = true ↔ 0 ≤ p.1 ∧ p.1 < 4 ∧ 0 ≤ p.2 ∧ p.2 < 4 := by
  simp [inBounds, and_assoc]

theorem dedup_length_eq_iff (l : List Pos) :
    l.dedup.length = l.length ↔ l.Nodup := by
  constructor
  · intro h
    have hs := l.dedup_sublist
    have heq := hs.eq_of_length h
    rw [← heq]
    exact l.nodup_dedup
  · intro h
    rw [h.dedup]

theorem adjacentStep_iff (l : List Pos) :
    adjacentStep l = true ↔
      List.Chain' (fun p q => (p.1 - q.1).natAbs ≤ 1 ∧ (p.2 - q.2).natAbs ≤ 1) l := by
  induction l with
  | nil => simp [adjacentStep]
  | cons p t ih =>
    cases t with
    | nil => simp [adjacentStep]
    | cons q r =>
      by_cases h : ((p.1 - q.1).natAbs > 1 || (p.2 - q.2).natAbs > 1) = true
      · have hfalse : adjacentStep (p :: q :: r) = false := by
          show (if (p.1 - q.1).natAbs > 1 || (p.2 - q.2).natAbs > 1 then false
                else adjacentStep (q :: r)) = false
          rw [if_pos h]
        rw [List.chain'_cons, hfalse]
        simp only [Bool.false_eq_true, false_iff]
        simp only [Bool.or_eq_true, decide_eq_true_eq] at h
        rintro ⟨⟨h1, h2⟩, -⟩
        omega
      · have hstep : adjacentStep (p :: q :: r) = adjacentStep (q :: r) := by
          show (if (p.1 - q.1).natAbs > 1 || (p.2 - q.2).natAbs > 1 then false
                else adjacentStep (q :: r)) = adjacentStep (q :: r)
          rw [if_neg h]
        simp only [Bool.or_eq_true, decide_eq_true_eq, not_or, Nat.not_lt] at h
        rw [List.chain'_cons, hstep, ih]
        simp [h.1, h.2]

theorem is_valid_path_iff (positions : List Pos) :
    is_valid_path positions = true ↔
      3 ≤ positions.length ∧ positions.Nodup ∧
        (∀ p ∈ positions, 0 ≤ p.1 ∧ p.1 < 4 ∧ 0 ≤ p.2 ∧ p.2 < 4) ∧
        List.Chain' (fun p q => (p.1 - q.1).natAbs ≤ 1 ∧ (p.2 - q.2).natAbs ≤ 1)
          positions := by
  unfold is_valid_path
  by_cases h1 : positions.length < 3
  · rw [if_pos h1]
    simp only [Bool.false_eq_true, false_iff]
    rintro ⟨h, -⟩
    omega
  · rw [if_neg h1]
    by_cases h2 : positions.dedup.length ≠ positions.length
    · rw [if_pos h2]
      simp only [Bool.false_eq_true, false_iff]
      rintro ⟨-, hnd, -⟩
      exact h2 ((dedup_length_eq_iff positions).2 hnd)
    · rw [if_neg h2]
      push_neg at h2
      have hnd : positions.Nodup := (dedup_length_eq_iff positions).1 h2
      by_cases h3 : positions.all inBounds = true
      · rw [if_neg (by simp [h3])]
        rw [adjacentStep_iff]
        simp only [List.all_eq_true] at h3
        constructor
        · intro hc
          exact ⟨by omega, hnd, fun p hp => (inBounds_iff p).1 (h3 p hp), hc⟩
        · rintro ⟨-, -, -, hc⟩
          exact hc
      · rw [if_pos (by simp [h3])]
        simp only [Bool.false_eq_true, false_iff]
        rintro ⟨-, -, hb, -⟩
        apply h3
        simp only [List.all_eq_true]
        intro p hp
        exact (inBounds_iff p).2 (hb p hp)

theorem get_word_foldl (board : Board) (positions : List Pos) (acc : Word) :
    positions.foldl
        (fun word p =>
          if inBounds p then word ++ [(board p.1.toNat p.2.toNat).toLower] else word)
        acc
      = acc ++ (positions.filter inBounds).map
          (fun p => (board p.1.toNat p.2.toNat).toLower) := by
  induction positions generalizing acc with
  | nil => simp
  | cons p rest ih =>
    by_cases h : inBounds p = true
    · simp [List.foldl_cons, List.filter_cons, h, ih]
    · simp [List.foldl_cons, List.filter_cons, h, ih]

theorem get_word_eq_filter_map (board : Board) (positions : List Pos) :
    get_word_from_path board positions
      = (positions.filter inBounds).map
          (fun p => (board p.1.toNat p.2.toNat).toLower) := by
  simpa [get_word_from_path] using get_word_foldl board positions []

theorem validate_word_attempted (validWords : List Word) (g : BoggleGame)
    (positions : List Pos) :
    (validate_word validWords g positions).2.2
      = get_word_from_path g.board positions := by
  simp only [validate_word]
  split_ifs <;> rfl

theorem validate_word_invalid_path (validWords : List Word) (g : BoggleGame)
    (positions : List Pos) (h : is_valid_path positions = false) :
    validate_word validWords g positions
      = (false, msgInvalidPath, get_word_from_path g.board positions) := by
  simp [validate_word, h]

theorem validate_word_true_elim (validWords : List Word) (g : BoggleGame)
    (positions : List Pos) (h : (validate_word validWords g positions).1 = true) :
    is_valid_path positions = true ∧
    3 ≤ (get_word_from_path g.board positions).length ∧
    is_valid_word validWords (get_word_from_path g.board positions) = true ∧
    get_word_from_path g.board positions ∉ g.found_words ∧
    validate_word validWords g positions
      = (true, get_word_from_path g.board positions,
         get_word_from_path g.board positions) := by
  simp only [validate_word] at h ⊢
  split_ifs at h ⊢ with h1 h2 h3 h4
  simp only [Bool.not_eq_true, Bool.not_eq_true'] at h1 h3
  refine ⟨?_, by omega, ?_, h4, rfl⟩
  · cases hb : is_valid_path positions
    · exact absurd hb h1
    · rfl
  · cases hb : is_valid_word validWords (get_word_from_path g.board positions)
    · exact absurd hb h3
    · rfl

theorem attemptWord_failure (validWords : List Word) (g : BoggleGame)
    (positions : List Pos) (msg w : Word)
    (h : validate_word validWords g positions = (false, msg, w)) :
    attemptWord validWords g positions = (AttemptResult.failure msg w, g) := by
  unfold attemptWord
  rw [h]

theorem attemptWord_success_eq (validWords : List Word) (g : BoggleGame)
    (positions : List Pos) (w w2 : Word)
    (h : validate_word validWords g positions = (true, w, w2)) :
    attemptWord validWords g positions
      = (AttemptResult.success w (pointsFor w.length)
           (g.score + pointsFor w.length) (g.found_words ++ [w]),
         { g with found_words := g.found_words ++ [w],
                  score := g.score + pointsFor w.length }) := by
  unfold attemptWord
  rw [h]
  rfl

theorem attemptWord_of_not_valid (validWords : List Word) (g : BoggleGame)
    (positions : List Pos)
    (h : (validate_word validWords g positions).1 = false) :
    attemptWord validWords g positions
      = (AttemptResult.failure (validate_word validWords g positions).2.1
           (validate_word validWords g positions).2.2, g) := by
  rcases hv : validate_word validWords g positions with ⟨b, r, w⟩
  rw [hv] at h
  apply attemptWord_failure
  rw [hv]
  simpa using h

theorem inBounds_eq_decide (p : Pos) :
    inBounds p = decide (0 ≤ p.1 ∧ p.1 < 4 ∧ 0 ≤ p.2 ∧ p.2 < 4) := by
  by_cases h : 0 ≤ p.1 ∧ p.1 < 4 ∧ 0 ≤ p.2 ∧ p.2 < 4
  · rw [decide_eq_true h, (inBounds_iff p).2 h]
  · rw [decide_eq_false h]
    cases hb : inBounds p
    · rfl
    · exact absurd ((inBounds_iff p).1 hb) h

/-! ### Claims -/

/-- C2: `is_valid_path` accepts a sequence of coordinates if and only if
all four rules hold: at least 3 coordinates, no coordinate occurs twice,
every coordinate has row and column in [0,4), and every consecutive pair
differs by at most 1 in absolute row difference and at most 1 in absolute
column difference. -/
theorem is_valid_path_accepts_iff (positions : List Pos) :
    is_valid_path positions = true ↔
      3 ≤ positions.length ∧ positions.Nodup ∧
        (∀ p ∈ positions, 0 ≤ p.1 ∧ p.1 < 4 ∧ 0 ≤ p.2 ∧ p.2 < 4) ∧
        List.Chain' (fun p q => (p.1 - q.1).natAbs ≤ 1 ∧ (p.2 - q.2).natAbs ≤ 1)
          positions :=
  is_valid_path_iff positions

/-- C6: the scoring function is the fixed step function: length at most 4
gives 1 point, 5 gives 2, 6 gives 3, 7 gives 5, and 8 or more gives 11. -/
theorem pointsFor_step_function (n : Nat) :
    (n ≤ 4 → pointsFor n = 1) ∧ (n = 5 → pointsFor n = 2) ∧
    (n = 6 → pointsFor n = 3) ∧ (n = 7 → pointsFor n = 5) ∧
    (8 ≤ n → pointsFor n = 11) := by
  unfold pointsFor
  refine ⟨fun h => ?_, fun h => ?_, fun h => ?_, fun h => ?_, fun h => ?_⟩ <;>
    split_ifs <;> omega

/-- Witness for C6 at the boundary and saturation lengths 3, 4 and 12. -/
theorem pointsFor_step_function_witness :
    pointsFor 3 = 1 ∧ pointsFor 4 = 1 ∧ pointsFor 12 = 11 :=
  ⟨(pointsFor_step_function 3).1 (by decide),
   (pointsFor_step_function 4).1 (by decide),
   (pointsFor_step_function 12).2.2.2.2 (by decide)⟩

/-- C8: word extraction concatenates, in path order, the lowercased board
letter at every coordinate whose row and column lie in [0,4), silently
skipping out-of-bounds coordinates; and `validate_word` performs the
extraction on every attempt, echoing the extracted word in the
attempted-word slot of its result regardless of outcome. -/
theorem word_extraction_spec (validWords : List Word) (g : BoggleGame)
    (positions : List Pos) :
    get_word_from_path g.board positions
      = (positions.filter
            (fun p => decide (0 ≤ p.1 ∧ p.1 < 4 ∧ 0 ≤ p.2 ∧ p.2 < 4))).map
          (fun p => (g.board p.1.toNat p.2.toNat).toLower)
    ∧ (validate_word validWords g positions).2.2
        = get_word_from_path g.board positions := by
  constructor
  · rw [get_word_eq_filter_map,
      List.filter_congr (fun p _ => inBounds_eq_decide p)]
  · exact validate_word_attempted validWords g positions

theorem get_word_length_of_valid (b : Board) (positions : List Pos)
    (h : is_valid_path positions = true) :
    (get_word_from_path b positions).length = positions.length := by
  rw [get_word_eq_filter_map, List.length_map]
  have hb : ∀ p ∈ positions, inBounds p = true := by
    rw [is_valid_path_iff] at h
    exact fun p hp => (inBounds_iff p).2 (h.2.2.1 p hp)
  rw [List.filter_eq_self.2 hb]

theorem validate_word_success_intro (validWords : List Word) (g : BoggleGame)
    (positions : List Pos)
    (h1 : is_valid_path positions = true)
    (h2 : 3 ≤ (get_word_from_path g.board positions).length)
    (h3 : is_valid_word validWords (get_word_from_path g.board positions) = true)
    (h4 : get_word_from_path g.board positions ∉ g.found_words) :
    validate_word validWords g positions
      = (true, get_word_from_path g.board positions,
         get_word_from_path g.board positions) := by
  simp only [validate_word]
  split_ifs with c1 c2 c3
  · rw [h1] at c1
    exact Bool.noConfusion c1
  · omega
  · rw [h3] at c3
    exact Bool.noConfusion c3
  · rfl

/-- Concrete board, sessions and paths used by the witnesses below. -/
def boardC : Board := fun _ _ => 'C'

def gameC : BoggleGame :=
  { game_id := "1234", board := boardC, found_words := [], score := 0 }

def gameCFound : BoggleGame :=
  { game_id := "1234", board := boardC, found_words := [['c', 'c', 'c']], score := 1 }

def pathStraight : List Pos := [(0, 0), (0, 1), (0, 2)]

def pathGap : List Pos := [(0, 0), (2, 2), (0, 1)]

/-- C1: when every validation step succeeds (valid path, extracted word of
length at least 3, word in the dictionary, word not yet found), the
attempt appends the word to the found-words list, adds exactly `pointsFor`
of the word's length to the score, and returns a success result carrying
the word, the points awarded, the updated score and the updated
found-words list. -/
theorem attemptWord_success_updates (validWords : List Word) (g : BoggleGame)
    (positions : List Pos)
    (h1 : is_valid_path positions = true)
    (h2 : 3 ≤ (get_word_from_path g.board positions).length)
    (h3 : is_valid_word validWords (get_word_from_path g.board positions) = true)
    (h4 : get_word_from_path g.board positions ∉ g.found_words) :
    attemptWord validWords g positions
      = (AttemptResult.success (get_word_from_path g.board positions)
           (pointsFor (get_word_from_path g.board positions).length)
           (g.score + pointsFor (get_word_from_path g.board positions).length)
           (g.found_words ++ [get_word_from_path g.board positions]),
         { g with
             found_words :=
               g.found_words ++ [get_word_from_path g.board positions],
             score :=
               g.score
                 + pointsFor (get_word_from_path g.board positions).length }) :=
  attemptWord_success_eq validWords g positions _ _
    (validate_word_success_intro validWords g positions h1 h2 h3 h4)

/-- Witness for C1: a 3-letter word on a constant board with a one-word
dictionary. -/
theorem attemptWord_success_updates_witness :
    attemptWord [['c', 'c', 'c']] gameC pathStraight
      = (AttemptResult.success (get_word_from_path gameC.board pathStraight)
           (pointsFor (get_word_from_path gameC.board pathStraight).length)
           (gameC.score
             + pointsFor (get_word_from_path gameC.board pathStraight).length)
           (gameC.found_words ++ [get_word_from_path gameC.board pathStraight]),
         { gameC with
             found_words :=
               gameC.found_words ++ [get_word_from_path gameC.board pathStraight],
             score :=
               gameC.score
                 + pointsFor
                     (get_word_from_path gameC.board pathStraight).length }) :=
  attemptWord_success_updates [['c', 'c', 'c']] gameC pathStraight
    (by decide) (by decide) (by decide) (by decide)

/-- C4: rejection precedence - a geometrically invalid path is reported
with the path-invalidity reason even when it spells an already-found word,
and a geometrically valid path spelling a word absent from the dictionary
is reported with the dictionary reason even when that word is already in
the found list (the duplicate check comes later). -/
theorem validation_order_precedence (validWords : List Word) (g : BoggleGame)
    (positions : List Pos) :
    (is_valid_path positions = false →
      (validate_word validWords g positions).2.1 = msgInvalidPath)
    ∧ (is_valid_path positions = true →
        is_valid_word validWords (get_word_from_path g.board positions) = false →
        (validate_word validWords g positions).2.1 = msgNotRealWord) := by
  refine ⟨fun hinv => ?_, fun hval hdict => ?_⟩
  · rw [validate_word_invalid_path validWords g positions hinv]
  · simp only [validate_word]
    split_ifs with c1 c2 c3 c4
    · rw [hval] at c1
      exact Bool.noConfusion c1
    · have hlen := get_word_length_of_valid g.board positions hval
      have h3 := ((is_valid_path_iff positions).1 hval).1
      omega
    · rfl
    · rw [hdict] at c3
      exact absurd rfl c3
    · rw [hdict] at c3
      exact absurd rfl c3

/-- Witness for C4: on a session that has already found the word, an
invalid path yields the path reason and a valid path spelling a
non-dictionary word yields the dictionary reason. -/
theorem validation_order_precedence_witness :
    (validate_word [] gameCFound pathGap).2.1 = msgInvalidPath ∧
    (validate_word [] gameCFound pathStraight).2.1 = msgNotRealWord :=
  ⟨(validation_order_precedence [] gameCFound pathGap).1 (by decide),
   (validation_order_precedence [] gameCFound pathStraight).2
     (by decide) (by decide)⟩

/-- C5: every failed attempt leaves the session (board, found words,
score) unchanged and the failure result carries the word extracted from
the path. -/
theorem attempt_failure_preserves_state (validWords : List Word)
    (g : BoggleGame) (positions : List Pos)
    (h : (validate_word validWords g positions).1 = false) :
    (attemptWord validWords g positions).2 = g ∧
    (attemptWord validWords g positions).1
      = AttemptResult.failure (validate_word validWords g positions).2.1
          (get_word_from_path g.board positions) := by
  rw [attemptWord_of_not_valid validWords g positions h]
  exact ⟨rfl, by rw [validate_word_attempted]⟩

/-- Witness for C5: a disconnected path against a fresh session. -/
theorem attempt_failure_preserves_state_witness :
    (attemptWord [] gameC pathGap).2 = gameC ∧
    (attemptWord [] gameC pathGap).1
      = AttemptResult.failure (validate_word [] gameC pathGap).2.1
          (get_word_from_path gameC.board pathGap) :=
  attempt_failure_preserves_state [] gameC pathGap (by decide)

/-- C10: a path accepted by validation has every coordinate in bounds, so
the extracted word is exactly as long as the path and has length at least
3; consequently the too-short branch of `validate_word` is unreachable -
no failing attempt ever reports `msgTooShort`. -/
theorem too_short_branch_unreachable (validWords : List Word) (g : BoggleGame)
    (positions : List Pos) :
    (is_valid_path positions = true →
      (get_word_from_path g.board positions).length = positions.length ∧
        3 ≤ (get_word_from_path g.board positions).length)
    ∧ ((validate_word validWords g positions).1 = false →
        (validate_word validWords g positions).2.1 ≠ msgTooShort) := by
  constructor
  · intro hval
    have hlen := get_word_length_of_valid g.board positions hval
    have h3 := ((is_valid_path_iff positions).1 hval).1
    exact ⟨hlen, by omega⟩
  · intro hfail
    simp only [validate_word] at hfail ⊢
    split_ifs at hfail ⊢ with c1 c2 c3 c4
    · intro heq
      exact absurd (show msgInvalidPath = msgTooShort from heq) (by decide)
    · have hval : is_valid_path positions = true := by
        cases hb : is_valid_path positions
        · rw [hb] at c1
          exact absurd rfl c1
        · rfl
      have hlen := get_word_length_of_valid g.board positions hval
      have h3 := ((is_valid_path_iff positions).1 hval).1
      omega
    · intro heq
      exact absurd (show msgNotRealWord = msgTooShort from heq) (by decide)
    · intro heq
      exact absurd (show msgAlreadyFound = msgTooShort from heq) (by decide)

/-- Witness for C10: the valid straight path on the constant board, with
an empty dictionary so the attempt fails at the dictionary step. -/
theorem too_short_branch_unreachable_witness :
    ((get_word_from_path gameC.board pathStraight).length
        = pathStraight.length ∧
      3 ≤ (get_word_from_path gameC.board pathStraight).length) ∧
    (validate_word [] gameC pathStraight).2.1 ≠ msgTooShort :=
  ⟨(too_short_branch_unreachable [] gameC pathStraight).1 (by decide),
   (too_short_branch_unreachable [] gameC pathStraight).2 (by decide)⟩

theorem mem_addLine (acc : List Word) (line : String) (w : Word) :
    w ∈ addLine acc line
      ↔ w ∈ acc ∨ (line.trim.toLower.toList = w ∧ w ≠ []) := by
  simp only [addLine]
  split_ifs with e1 e2
  · constructor
    · exact Or.inl
    · rintro (h | ⟨h, hne⟩)
      · exact h
      · exact absurd (h ▸ e1) hne
  · constructor
    · exact Or.inl
    · rintro (h | ⟨h, hne⟩)
      · exact h
      · exact h ▸ e2
  · rw [List.mem_append, List.mem_singleton]
    constructor
    · rintro (h | h)
      · exact Or.inl h
      · exact Or.inr ⟨h.symm, h ▸ e1⟩
    · rintro (h | ⟨h, hne⟩)
      · exact Or.inl h
      · exact Or.inr h.symm

theorem foldl_addLine_mem (lines : List String) (acc : List Word) (w : Word) :
    w ∈ lines.foldl addLine acc
      ↔ w ∈ acc ∨ ∃ line ∈ lines, line.trim.toLower.toList = w ∧ w ≠ [] := by
  induction lines generalizing acc with
  | nil => simp
  | cons l rest ih =>
    rw [List.foldl_cons, ih, mem_addLine]
    simp only [List.exists_mem_cons_iff]
    tauto

theorem validate_word_empty_dict (g : BoggleGame) (ps : List Pos) :
    (validate_word [] g ps).1 = false := by
  cases hb : (validate_word [] g ps).1
  · rfl
  · have h := (validate_word_true_elim [] g ps hb).2.2.1
    simp [is_valid_word] at h

/-- C9: dictionary load never fails its caller - with a readable source
the loaded set contains exactly the nonempty trimmed-and-lowercased
lines, and with a missing or unreadable source it is the empty set, in
which case every subsequent word attempt is rejected. -/
theorem load_word_list_spec (lines : List String) (w : Word) :
    (load_word_list none = [] ∧
      ∀ (g : BoggleGame) (ps : List Pos),
        (validate_word (load_word_list none) g ps).1 = false) ∧
    (w ∈ load_word_list (some lines)
      ↔ ∃ line ∈ lines, line.trim.toLower.toList = w ∧ w ≠ []) := by
  refine ⟨⟨rfl, fun g ps => validate_word_empty_dict g ps⟩, ?_⟩
  rw [show load_word_list (some lines) = lines.foldl addLine [] from rfl,
    foldl_addLine_mem]
  simp

theorem invariant_step (validWords : List Word) (g : BoggleGame)
    (ps : List Pos) (hnd : g.found_words.Nodup)
    (hsc : g.score = (g.found_words.map (fun w => pointsFor w.length)).sum) :
    (attemptWord validWords g ps).2.found_words.Nodup ∧
    (attemptWord validWords g ps).2.score
      = ((attemptWord validWords g ps).2.found_words.map
          (fun w => pointsFor w.length)).sum := by
  cases hb : (validate_word validWords g ps).1
  · rw [attemptWord_of_not_valid validWords g ps hb]
    exact ⟨hnd, hsc⟩
  · have h := validate_word_true_elim validWords g ps hb
    rw [attemptWord_success_eq validWords g ps _ _ h.2.2.2.2]
    constructor
    · rw [List.nodup_append]
      exact ⟨hnd, List.nodup_singleton _,
        by simpa [List.disjoint_singleton] using h.2.2.2.1⟩
    · simp [hsc]

theorem score_mono (validWords : List Word) (g : BoggleGame) (ps : List Pos) :
    g.score ≤ (attemptWord validWords g ps).2.score := by
  cases hb : (validate_word validWords g ps).1
  · rw [attemptWord_of_not_valid validWords g ps hb]
  · have h := validate_word_true_elim validWords g ps hb
    rw [attemptWord_success_eq validWords g ps _ _ h.2.2.2.2]
    exact Nat.le_add_right _ _

theorem invariant_run (validWords : List Word) (attempts : List (List Pos))
    (g : BoggleGame) (hnd : g.found_words.Nodup)
    (hsc : g.score = (g.found_words.map (fun w => pointsFor w.length)).sum) :
    (runAttempts validWords g attempts).found_words.Nodup ∧
    (runAttempts validWords g attempts).score
      = ((runAttempts validWords g attempts).found_words.map
          (fun w => pointsFor w.length)).sum := by
  induction attempts generalizing g with
  | nil => exact ⟨hnd, hsc⟩
  | cons ps rest ih =>
    have h := invariant_step validWords g ps hnd hsc
    exact ih _ h.1 h.2

/-- C7: in every state reachable from a fresh session by any sequence of
attempts, the found-words list has no duplicates and the score equals the
sum of `pointsFor` of the lengths of the found words (hence the score is
order-independent); moreover a single attempt never decreases the
score. -/
theorem session_invariant (validWords : List Word) (id : String)
    (board : Board) (attempts : List (List Pos)) :
    ((runAttempts validWords (freshGame id board) attempts).found_words.Nodup ∧
      (runAttempts validWords (freshGame id board) attempts).score
        = ((runAttempts validWords (freshGame id board) attempts).found_words.map
            (fun w => pointsFor w.length)).sum)
    ∧ ∀ (g : BoggleGame) (ps : List Pos),
        g.score ≤ (attemptWord validWords g ps).2.score :=
  ⟨invariant_run validWords attempts (freshGame id board) List.nodup_nil rfl,
   fun g ps => score_mono validWords g ps⟩

/-- A path whose first failing rule is the duplicate rule. -/
def pathDup : List Pos := [(0, 0), (0, 0), (0, 1)]

/-- C3 counterexample: the empty path fails the length rule first and
`pathDup` fails the duplicate rule first, yet the attempt interface
reports the identical reason string for both - path validation returns a
plain boolean and no per-rule distinct reason exists anywhere in the
code. -/
theorem path_reasons_not_distinct :
    is_valid_path ([] : List Pos) = false ∧ ([] : List Pos).length < 3 ∧
    is_valid_path pathDup = false ∧ 3 ≤ pathDup.length ∧ ¬ pathDup.Nodup ∧
    (validate_word [] gameC []).2.1 = (validate_word [] gameC pathDup).2.1 := by
  decide

/-- C3 amended: the rules are evaluated in the stated order but produce
only a boolean; every invalid path is rejected with the one fixed
path-invalidity message, whichever rule failed. -/
theorem invalid_path_single_reason (validWords : List Word) (g : BoggleGame)
    (positions : List Pos) (h : is_valid_path positions = false) :
    (validate_word validWords g positions).1 = false ∧
    (validate_word validWords g positions).2.1 = msgInvalidPath := by
  rw [validate_word_invalid_path validWords g positions h]
  exact ⟨rfl, rfl⟩

/-- Witness for the amended C3 at a disconnected concrete path. -/
theorem invalid_path_single_reason_witness :
    (validate_word [] gameC pathGap).1 = false ∧
    (validate_word [] gameC pathGap).2.1 = msgInvalidPath :=
  invalid_path_single_reason [] gameC pathGap (by decide)
